import Mathlib

/-!
Shallow embedding of the core of the `lingo` repository (a Go gateway over
several LLM provider APIs), covering the retry/backoff controller of
`ratelimit.go` and the provider registry / dispatch gateway of `gateway.go`.

Conventions of the embedding:
* `time.Duration` is an `Int` counted in nanoseconds, exactly as in Go.
* Go `float64` arithmetic (the backoff multiplier, jitter factors and
  `strconv.ParseFloat` results) is modelled with exact rationals `ℚ`;
  the conversion `time.Duration(x)` of a float to a duration truncates
  toward zero, modelled by `ratTrunc`.  The concrete numbers appearing in
  the theorems below are all exactly representable in `float64`, so the
  idealisation does not affect any statement.
* Go strings are modelled as `List Char`; all strings involved are ASCII,
  where `strings.ToLower` agrees with mapping `Char.toLower`.
* `rand.Float64()` draws are passed in explicitly as an oracle
  `u : Nat → ℚ`; context cancellation is passed in as two oracles saying
  whether `ctx.Done()` fires at the pre-attempt check of iteration `k`
  (`doneBefore k`) and during the wait following iteration `k`
  (`doneDuring k`).
-/

namespace Lingo

/-- `listIsPrefixOf l pat` is true when `pat` is a prefix of `l`
(helper for the embedding of Go's `strings.Index` / `strings.Contains`). -/
def listIsPrefixOf : List Char → List Char → Bool
  | _, [] => true
  | [], _ :: _ => false
  | a :: as, b :: bs => a == b && listIsPrefixOf as bs

/-- Embedding of Go's `strings.Index` (on rune lists): the index of the
first occurrence of `pat` in `l`, or `none` when absent (Go returns -1). -/
def indexOf? : List Char → List Char → Option Nat
  | [], pat => if listIsPrefixOf [] pat then some 0 else none
  | a :: t, pat =>
    if listIsPrefixOf (a :: t) pat then some 0
    else (indexOf? t pat).map (· + 1)

/-- Embedding of Go's `strings.Contains`. -/
def strContains (s sub : String) : Bool :=
  (indexOf? s.toList sub.toList).isSome

/-- Embedding of Go's `strings.ToLower` restricted to ASCII text. -/
def goToLower (cs : List Char) : List Char :=
  cs.map Char.toLower

/-- Numeric value of a list of decimal digit characters (most significant
first), as read by `strconv.ParseFloat` on the digit runs scanned by
`extractRetryAfter`. -/
def digitsToNat : List Char → Nat
  | [] => 0
  | c :: cs => (c.toNat - 48) * 10 ^ cs.length + digitsToNat cs

/-- Kernel-computable product of two rationals, via the normalising
constructor `mkRat`; it agrees with `*` (theorem `ratMul_eq` below).  The
embedding uses it where Go multiplies `float64` values that concrete
witnesses must evaluate, because `Rat.mul` is `@[irreducible]`. -/
def ratMul (a b : ℚ) : ℚ := mkRat (a.num * b.num) (a.den * b.den)

/-- Embedding of `strconv.ParseFloat` on strings drawn from the scanner of
`extractRetryAfter` (so containing only decimal digits and dots): at most
one dot and at least one digit is accepted.  The value is kept as an exact
rational — `mkRat (I * 10^k + F) 10^k` is the value `I + F / 10^k` of the
digit string `I.F` (theorem `parseGoFloat_fracValue` below); the concrete
values used in this development are exactly representable in `float64`. -/
def parseGoFloat (cs : List Char) : Option ℚ :=
  let intPart := cs.takeWhile (fun c => c != '.')
  let rest := cs.dropWhile (fun c => c != '.')
  match rest with
  | [] => if intPart.isEmpty then none else some (digitsToNat intPart)
  | _ :: fracPart =>
    if fracPart.any (fun c => c == '.') then none
    else if intPart.isEmpty && fracPart.isEmpty then none
    else some (mkRat
      (digitsToNat intPart * 10 ^ fracPart.length + digitsToNat fracPart)
      (10 ^ fracPart.length))

/-- Go's conversion of a `float64` to an integer type (`time.Duration(x)`):
truncation toward zero, on the rational model of floats. -/
def ratTrunc (q : ℚ) : Int :=
  if q < 0 then ⌈q⌉ else ⌊q⌋

/-- `time.Millisecond` in nanoseconds. -/
def millisecond : Int := 1000000

/-- `time.Second` in nanoseconds. -/
def second : Int := 1000000000

/-- The `RateLimitConfig` struct of `types.go`: durations in nanoseconds,
the multiplier an exact rational standing for the `float64` field. -/
structure RateLimitConfig where
  maxRetries : Int
  initialBackoff : Int
  maxBackoff : Int
  backoffMultiplier : ℚ
  deriving DecidableEq, Repr

/-- `DefaultRateLimitConfig` of `types.go`. -/
def DefaultRateLimitConfig : RateLimitConfig :=
  { maxRetries := 3
    initialBackoff := second
    maxBackoff := 60 * second
    backoffMultiplier := 2 }

/-- `newRateLimiter` of `ratelimit.go`, viewed through its effect on the
configuration: a `nil` config is replaced by `DefaultRateLimitConfig()`,
and every zero-valued field is overwritten with its default.  The Go
function performs these writes through the caller's pointer, so for a
non-nil argument the returned struct is also the caller-visible state of
the supplied config after the call. -/
def newRateLimiter (config : Option RateLimitConfig) : RateLimitConfig :=
  let c := config.getD DefaultRateLimitConfig
  { maxRetries := if c.maxRetries = 0 then 3 else c.maxRetries
    initialBackoff := if c.initialBackoff = 0 then second else c.initialBackoff
    maxBackoff := if c.maxBackoff = 0 then 60 * second else c.maxBackoff
    backoffMultiplier := if c.backoffMultiplier = 0 then 2 else c.backoffMultiplier }

/-- The `rateLimitIndicators` list of `isRateLimitError`. -/
def rateLimitIndicators : List String :=
  ["rate limit", "rate_limit", "ratelimit", "too many requests", "429",
   "quota exceeded", "quota_exceeded", "overloaded", "capacity", "throttl"]

/-- `isRateLimitError` of `ratelimit.go`: `none` stands for a `nil` Go
error, `some msg` for an error whose `Error()` text is `msg`. -/
def isRateLimitError : Option String → Bool
  | none => false
  | some msg =>
    rateLimitIndicators.any (fun ind => (indexOf? (goToLower msg.toList) ind.toList).isSome)

/-- The `patterns` list of `extractRetryAfter`. -/
def retryAfterPatterns : List String :=
  ["retry after ", "retry-after: ", "retry_after=", "retry_after_ms="]

/-- The digit/dot scanner of `extractRetryAfter` (the loop advancing `end`
over characters in `0`..`9` or `.`). -/
def scanNumber (cs : List Char) : List Char :=
  cs.takeWhile (fun c => c.isDigit || c == '.')

/-- One iteration of the pattern loop of `extractRetryAfter`: look for
`pattern` in the lowered error text, scan the number following it in the
original text, parse it, and convert with the unit inferred from the
pattern.  `none` means the loop continues with the next pattern. -/
def tryPattern (errStr : List Char) (pattern : String) : Option Int :=
  match indexOf? (goToLower errStr) pattern.toList with
  | none => none
  | some idx =>
    let start := idx + pattern.length
    let numChars := scanNumber (errStr.drop start)
    if numChars.isEmpty then none
    else
      match parseGoFloat numChars with
      | none => none
      | some val =>
        if strContains pattern "ms" then some (ratTrunc val * millisecond)
        else some (ratTrunc val * second)

/-- `extractRetryAfter` of `ratelimit.go`: first pattern (in list order)
that yields a parsable number wins; otherwise 0. -/
def extractRetryAfter : Option String → Int
  | none => 0
  | some msg => (retryAfterPatterns.findSome? (tryPattern msg.toList)).getD 0

/-- `calculateBackoff` of `ratelimit.go`.  `u` is the `rand.Float64()`
draw (a value in `[0,1)`); the jitter is `baseBackoff * 0.25 * (2u - 1)`,
truncated toward zero when converted back to a duration. -/
def calculateBackoff (baseBackoff : Int) (err : Option String) (u : ℚ) : Int :=
  let retryAfter := extractRetryAfter err
  if retryAfter > 0 then retryAfter
  else baseBackoff + ratTrunc ((baseBackoff : ℚ) * (1 / 4) * (u * 2 - 1))

/-- The backoff update at the end of each `Execute` iteration:
`backoff = time.Duration(float64(backoff) * BackoffMultiplier)`, capped at
`MaxBackoff`. -/
def nextBackoff (cfg : RateLimitConfig) (b : Int) : Int :=
  let grown := ratTrunc (ratMul (b : ℚ) cfg.backoffMultiplier)
  if grown > cfg.maxBackoff then cfg.maxBackoff else grown

/-- The sequence of nominal backoff values (before jitter) held by the
`backoff` variable of `Execute` at the start of successive iterations. -/
def nominalBackoff (cfg : RateLimitConfig) : Nat → Int
  | 0 => cfg.initialBackoff
  | k + 1 => nextBackoff cfg (nominalBackoff cfg k)

/-- The value `Execute` returns: a `nil` error (`success`), the operation's
error returned as-is (`failure e`, with the identical error value `e`), or
`ctx.Err()` after a cancellation check fired. -/
inductive ExecResult (E : Type) where
  | success
  | failure (e : E)
  | ctxErr
  deriving DecidableEq, Repr

/-- Observable trace of one `Execute` call: its returned value, how many
times the operation was invoked, and the wait durations passed to the
inter-attempt sleep. -/
structure ExecTrace (E : Type) where
  result : ExecResult E
  invocations : Nat
  waits : List Int
  deriving DecidableEq, Repr

/-- The retry loop of `Execute` (`ratelimit.go` lines 50-100), fuelled by
the number of remaining iterations.  `fn k` is the outcome of the `k`-th
invocation of the operation (`none` = `nil` error), `errText` renders an
error value to its `Error()` text, `attempt` and `backoff` are the loop
variables.  The fuel-0 base case is the loop's natural exit, returning
`lastErr`, which is reachable only with zero iterations (`lastErr = nil`,
i.e. success). -/
def executeLoop {E : Type} (cfg : RateLimitConfig) (errText : E → String)
    (fn : Nat → Option E) (doneBefore doneDuring : Nat → Bool) (u : Nat → ℚ) :
    Nat → Int → Nat → ExecTrace E
  | _, _, 0 => ⟨.success, 0, []⟩
  | attempt, backoff, fuel + 1 =>
    if doneBefore attempt then ⟨.ctxErr, 0, []⟩
    else
      match fn attempt with
      | none => ⟨.success, 1, []⟩
      | some e =>
        if !isRateLimitError (some (errText e)) then ⟨.failure e, 1, []⟩
        else if (attempt : Int) ≥ cfg.maxRetries then ⟨.failure e, 1, []⟩
        else
          let w := calculateBackoff backoff (some (errText e)) (u attempt)
          if doneDuring attempt then ⟨.ctxErr, 1, [w]⟩
          else
            let rest := executeLoop cfg errText fn doneBefore doneDuring u
              (attempt + 1) (nextBackoff cfg backoff) fuel
            ⟨rest.result, rest.invocations + 1, w :: rest.waits⟩

/-- `Execute` of `ratelimit.go`: runs the loop from `attempt = 0` with
`backoff = InitialBackoff`; the loop guard `attempt <= MaxRetries` allows
`MaxRetries + 1` iterations (none when `MaxRetries < 0`). -/
def Execute {E : Type} (cfg : RateLimitConfig) (errText : E → String)
    (fn : Nat → Option E) (doneBefore doneDuring : Nat → Bool) (u : Nat → ℚ) :
    ExecTrace E :=
  executeLoop cfg errText fn doneBefore doneDuring u 0 cfg.initialBackoff
    (cfg.maxRetries + 1).toNat

/-! ## Gateway (`gateway.go`)

Provider identifiers (`ProviderType`) are strings.  Adapters are external
collaborators (per the spec, out of core scope): an adapter is modelled by
its observable behaviour — the pair `(response, error)` its `Generate`
returns for a given descriptor and prompt (either side may be `none`,
standing for a `nil` Go pointer/error), and the error its `Close`
returns.  Context and logger arguments, which the gateway merely threads
through, are not modelled. -/

/-- A model descriptor: the `Model` interface of `types.go` (name,
provider, optional system prompt). -/
structure ModelDesc where
  modelName : String
  provider : String
  systemPrompt : String
  deriving DecidableEq, Repr

/-- `TokenUsage` of `types.go`. -/
structure TokenUsage where
  promptTokens : Int
  completionTokens : Int
  totalTokens : Int
  deriving DecidableEq, Repr

/-- `GenerationResponse` of `types.go` (`Metadata` as an association
list). -/
structure GenerationResponse where
  text : String
  provider : String
  model : String
  usage : TokenUsage
  finishReason : String
  metadata : List (String × String)
  deriving DecidableEq, Repr

/-- An adapter instance, by observable behaviour: `gen m p` is the
`(*GenerationResponse, error)` pair its `Generate` returns, `closeErr`
the error its `Close` returns. -/
structure Adapter where
  gen : ModelDesc → String → Option GenerationResponse × Option String
  closeErr : Option String

/-- Lookup in a Go map modelled as an association list
(`client, exists := g.providers[provider]`). -/
def mapLookup (l : List (String × Adapter)) (k : String) : Option Adapter :=
  (l.find? (fun p => p.1 == k)).map Prod.snd

/-- Assignment into a Go map (`g.providers[pt] = client`): replaces an
existing binding for the key, otherwise appends. -/
def mapInsert (l : List (String × Adapter)) (k : String) (v : Adapter) :
    List (String × Adapter) :=
  match l with
  | [] => [(k, v)]
  | (k', v') :: t =>
    if k' == k then (k, v) :: t else (k', v') :: mapInsert t k v

/-- The `LLMGateway` struct: its `providers` map (the `sync.RWMutex` and
logger carry no observable state). -/
structure GatewayState where
  providers : List (String × Adapter)

/-- The outcome of `LLMGateway.Generate`: a normal `(resp, nil)` return,
a normal `(nil, err)` return, or the run-time panic of dereferencing a
`nil` response at the `resp.Provider = provider` assignment. -/
inductive GenOutcome where
  | ok (resp : GenerationResponse)
  | err (e : String)
  | panic
  deriving Repr

/-- `LLMGateway.Generate` of `gateway.go`: look up the adapter for the
descriptor's provider, fail with "not registered" if absent, otherwise
delegate; a non-nil adapter error is returned as-is, and on a nil error
the provider field of the (dereferenced) response is overwritten with the
descriptor's provider before returning. -/
def LLMGateway.Generate (g : GatewayState) (model : ModelDesc) (prompt : String) :
    GenOutcome :=
  match mapLookup g.providers model.provider with
  | none => .err ("provider " ++ model.provider ++ " is not registered")
  | some client =>
    match client.gen model prompt with
    | (_, some e) => .err e
    | (none, none) => .panic
    | (some resp, none) => .ok { resp with provider := model.provider }

/-- `LLMGateway.IsRegistered` of `gateway.go`. -/
def LLMGateway.IsRegistered (g : GatewayState) (provider : String) : Bool :=
  (mapLookup g.providers provider).isSome

/-- `LLMGateway.ListRegisteredProviders` of `gateway.go` (Go map
iteration order is arbitrary; the association-list order stands in for
it, which is irrelevant to emptiness). -/
def LLMGateway.listRegisteredProviders (g : GatewayState) : List String :=
  g.providers.map Prod.fst

/-- Observable outcome of `LLMGateway.Close`: which providers had their
adapter's `Close` invoked, the collected per-provider failure messages
(`Close` returns a combined error exactly when this list is non-empty;
its `%v` formatting is not modelled), and the gateway state afterwards. -/
structure CloseResult where
  closedProviders : List String
  failures : List String
  after : GatewayState

/-- `LLMGateway.Close` of `gateway.go`: calls `Close` on every adapter in
the map, collecting failures; the map itself is not modified (the source
contains no `delete` and no reassignment of `g.providers`). -/
def LLMGateway.Close (g : GatewayState) : CloseResult :=
  { closedProviders := g.providers.map Prod.fst
    failures := g.providers.filterMap
      (fun p => p.2.closeErr.map (fun e => "provider " ++ p.1 ++ ": " ++ e))
    after := g }

/-- A provider configuration as `New` consumes it: only its
`providerType()` is inspected by the gateway itself; the rest of the
struct is passed opaquely to the factory, so a factory is modelled as a
function of the whole configuration. -/
structure ProviderConfigM where
  providerType : String
  deriving DecidableEq, Repr

/-- A `ProviderFactory`: builds an adapter from a configuration or fails
(the logger argument, merely threaded through, is not modelled). -/
def Factory : Type := ProviderConfigM → Except String Adapter

/-- Result of `New`: the returned gateway (`none` = `nil`), the returned
error, and the providers whose adapter `Close` was invoked during
construction — constantly `[]` because the source of `New` contains no
`Close` call on any path. -/
structure NewResult where
  gateway : Option GatewayState
  err : Option String
  closedProviders : List String

/-- The configuration loop of `New` (`gateway.go` lines 67-94),
accumulating the `providers` map: `nil` configs are skipped; an
unregistered provider type aborts with an "unknown provider type" error;
a factory failure aborts with a "failed to initialize" error; after the
loop an empty map is rejected. -/
def newLoop (factories : String → Option Factory) :
    List (Option ProviderConfigM) → List (String × Adapter) → NewResult
  | [], acc =>
    if acc.length = 0 then
      ⟨none, some "at least one provider must be configured", []⟩
    else ⟨some ⟨acc⟩, none, []⟩
  | none :: rest, acc => newLoop factories rest acc
  | some config :: rest, acc =>
    match factories config.providerType with
    | none => ⟨none, some ("unknown provider type: " ++ config.providerType), []⟩
    | some factory =>
      match factory config with
      | .error e =>
        ⟨none, some ("failed to initialize " ++ config.providerType ++ ": " ++ e), []⟩
      | .ok client => newLoop factories rest (mapInsert acc config.providerType client)

/-- `New` of `gateway.go`, parameterised by the global provider registry
(`providerFactories`, a map from provider type to factory). -/
def NewGateway (factories : String → Option Factory)
    (configs : List (Option ProviderConfigM)) : NewResult :=
  newLoop factories configs []

/-! ## Theorems about the retry controller and the gateway -/

/-- `ratMul` is ordinary rational multiplication. -/
theorem ratMul_eq (a b : ℚ) : ratMul a b = a * b :=
  (Rat.mul_eq_mkRat a b).symm

/-- C2: for every operation whose first invocation returns an error that
does not classify as transient (no rate-limit/overload substring in its
text), `Execute` invokes the operation exactly once, performs no wait,
and returns that error unchanged — the identical error value `e`
(stated for a live context and an effective non-negative `MaxRetries`,
which any defaulted configuration has). -/
theorem execute_nontransient_single_invocation {E : Type}
    (cfg : RateLimitConfig) (errText : E → String) (fn : Nat → Option E)
    (doneBefore doneDuring : Nat → Bool) (u : Nat → ℚ) (e : E)
    (halive : doneBefore 0 = false) (hmr : 0 ≤ cfg.maxRetries)
    (hfn : fn 0 = some e)
    (hperm : isRateLimitError (some (errText e)) = false) :
    Execute cfg errText fn doneBefore doneDuring u = ⟨.failure e, 1, []⟩ := by
  have hfuel : (cfg.maxRetries + 1).toNat = cfg.maxRetries.toNat + 1 := by omega
  unfold Execute
  rw [hfuel]
  simp [executeLoop, halive, hfn, hperm]

/-- Witness for `execute_nontransient_single_invocation`. -/
theorem execute_nontransient_single_invocation_witness :
    Execute ⟨3, second, 60 * second, 2⟩ id (fun _ => some "bad auth")
      (fun _ => false) (fun _ => false) (fun _ => 0) =
      ⟨.failure "bad auth", 1, []⟩ :=
  execute_nontransient_single_invocation _ id _ _ _ _ "bad auth" rfl
    (by decide) rfl (by decide)

/-- C7 counterexample: `newRateLimiter` does not leave a supplied config
with zero-valued fields unchanged — the Go code writes the defaults
through the caller's pointer, so the all-zero config comes back with all
four fields overwritten. -/
theorem config_mutated_counterexample :
    newRateLimiter (some ⟨0, 0, 0, 0⟩) ≠ (⟨0, 0, 0, 0⟩ : RateLimitConfig) := by
  decide

/-- C7 amended: a supplied `RateLimitConfig` whose four fields are all
non-zero is left unchanged by `newRateLimiter` (zero-valued fields, by
contrast, are overwritten in place with their defaults). -/
theorem config_nonzero_fields_preserved (c : RateLimitConfig)
    (h1 : c.maxRetries ≠ 0) (h2 : c.initialBackoff ≠ 0)
    (h3 : c.maxBackoff ≠ 0) (h4 : c.backoffMultiplier ≠ 0) :
    newRateLimiter (some c) = c := by
  cases c
  simp_all [newRateLimiter]

/-- Witness for `config_nonzero_fields_preserved`. -/
theorem config_nonzero_fields_preserved_witness :
    newRateLimiter (some ⟨5, second, 10 * second, 3⟩) =
      (⟨5, second, 10 * second, 3⟩ : RateLimitConfig) :=
  config_nonzero_fields_preserved _ (by decide) (by decide) (by decide) (by decide)

/-- C3: whenever the descriptor's provider is registered and the adapter
call succeeds, the response returned by `LLMGateway.Generate` carries
`provider = model.provider`, regardless of what the adapter put in that
field (`resp.provider` is universally quantified here). -/
theorem generate_stamps_provider (g : GatewayState) (model : ModelDesc)
    (prompt : String) (client : Adapter) (resp : GenerationResponse)
    (hreg : mapLookup g.providers model.provider = some client)
    (hok : client.gen model prompt = (some resp, none)) :
    ∃ r, LLMGateway.Generate g model prompt = .ok r ∧
      r.provider = model.provider := by
  refine ⟨{ resp with provider := model.provider }, ?_, rfl⟩
  simp only [LLMGateway.Generate, hreg, hok]

/-- Witness for `generate_stamps_provider`: the adapter fills in the
bogus provider value `"someone-else"`, and the gateway overwrites it. -/
theorem generate_stamps_provider_witness :
    ∃ r, LLMGateway.Generate
        ⟨[("openai",
           ⟨fun _ _ => (some ⟨"hi", "someone-else", "gpt-4o", ⟨1, 2, 3⟩, "stop", []⟩, none),
            none⟩)]⟩
        ⟨"gpt-4o", "openai", ""⟩ "a prompt" = .ok r ∧
      r.provider = "openai" :=
  generate_stamps_provider _ _ _ _ _ rfl rfl

/-- C10: with a registered adapter that returns a `nil` error, the
provider-stamping assignment of `LLMGateway.Generate` panics (nil
dereference) exactly when the adapter's response is `nil`; an adapter
honouring the non-nil-response contract never reaches the panic. -/
theorem generate_panic_iff_nil_response (g : GatewayState) (model : ModelDesc)
    (prompt : String) (client : Adapter) (r? : Option GenerationResponse)
    (hreg : mapLookup g.providers model.provider = some client)
    (hgen : client.gen model prompt = (r?, none)) :
    LLMGateway.Generate g model prompt = .panic ↔ r? = none := by
  simp only [LLMGateway.Generate, hreg, hgen]
  cases r? <;> simp

/-- Witness for `generate_panic_iff_nil_response`: an adapter returning
`(nil, nil)` makes `Generate` hit the nil dereference. -/
theorem generate_panic_iff_nil_response_witness :
    (LLMGateway.Generate ⟨[("openai", ⟨fun _ _ => (none, none), none⟩)]⟩
        ⟨"gpt-4o", "openai", ""⟩ "p" = .panic) ↔
      (none : Option GenerationResponse) = none :=
  generate_panic_iff_nil_response _ _ _ _ _ rfl rfl

/-- C8 counterexample: after `Close` returns, the provider map is not
drained — a gateway holding one adapter still reports it registered and
still lists it. -/
theorem close_keeps_providers_counterexample :
    LLMGateway.IsRegistered
        (LLMGateway.Close ⟨[("openai", ⟨fun _ _ => (none, none), none⟩)]⟩).after
        "openai" = true ∧
    LLMGateway.listRegisteredProviders
        (LLMGateway.Close ⟨[("openai", ⟨fun _ _ => (none, none), none⟩)]⟩).after
      ≠ [] := by
  refine ⟨rfl, ?_⟩
  simp [LLMGateway.Close, LLMGateway.listRegisteredProviders]

/-- C8 amended: `Close` invokes every adapter's `Close` (its trace covers
exactly the registered providers) but removes nothing from the map:
registration status and the provider listing are unchanged afterwards. -/
theorem close_leaves_map_unchanged (g : GatewayState) (p : String) :
    (LLMGateway.Close g).closedProviders = LLMGateway.listRegisteredProviders g ∧
    LLMGateway.IsRegistered (LLMGateway.Close g).after p =
      LLMGateway.IsRegistered g p ∧
    LLMGateway.listRegisteredProviders (LLMGateway.Close g).after =
      LLMGateway.listRegisteredProviders g :=
  ⟨rfl, rfl, rfl⟩

/-- Helper for C9: once the loop reaches a configuration whose provider
type has no factory, it aborts with the "unknown provider type" error —
provided every non-null configuration before it constructs
successfully. -/
theorem newLoop_unknown_aborts (factories : String → Option Factory)
    (config : ProviderConfigM) (post : List (Option ProviderConfigM))
    (hunk : factories config.providerType = none) :
    ∀ (pre : List (Option ProviderConfigM)) (acc : List (String × Adapter)),
      (∀ cc : ProviderConfigM, some cc ∈ pre →
        ∃ f a, factories cc.providerType = some f ∧ f cc = Except.ok a) →
      newLoop factories (pre ++ some config :: post) acc =
        ⟨none, some ("unknown provider type: " ++ config.providerType), []⟩ := by
  intro pre
  induction pre with
  | nil =>
    intro acc _
    simp only [List.nil_append, newLoop, hunk]
  | cons c pre ih =>
    intro acc hpre
    cases c with
    | none =>
      simpa only [List.cons_append, newLoop] using
        ih acc (fun cc hcc => hpre cc (List.mem_cons_of_mem _ hcc))
    | some cc =>
      obtain ⟨f, a, hf, ha⟩ := hpre cc (List.mem_cons_self _ _)
      simp only [List.cons_append, newLoop, hf, ha]
      exact ih _ (fun cc h => hpre cc (List.mem_cons_of_mem _ h))

/-- C9 amended: a configuration list containing a non-null configuration
with an unregistered provider type makes `New` fail wholesale — `nil`
gateway, no adapter `Close` ever invoked — and the error names that
provider type, provided every earlier non-null configuration constructs
successfully (an earlier failure is reported instead, see the
counterexample). -/
theorem new_unknown_provider_fails (factories : String → Option Factory)
    (pre post : List (Option ProviderConfigM)) (config : ProviderConfigM)
    (hunk : factories config.providerType = none)
    (hpre : ∀ cc : ProviderConfigM, some cc ∈ pre →
      ∃ f a, factories cc.providerType = some f ∧ f cc = Except.ok a) :
    NewGateway factories (pre ++ some config :: post) =
      ⟨none, some ("unknown provider type: " ++ config.providerType), []⟩ :=
  newLoop_unknown_aborts factories config post hunk pre [] hpre

/-- Witness for `new_unknown_provider_fails`: one null config and one
healthy `anthropic` config precede the unknown `mystery` config. -/
theorem new_unknown_provider_fails_witness :
    NewGateway
      (fun pt => if pt = "anthropic"
        then some (fun _ => .ok ⟨fun _ _ => (none, none), none⟩) else none)
      ([none, some ⟨"anthropic"⟩] ++ some ⟨"mystery"⟩ :: []) =
      ⟨none, some ("unknown provider type: " ++ "mystery"), []⟩ :=
  new_unknown_provider_fails _ _ _ _ rfl (by
    intro cc hcc
    simp only [List.mem_cons, List.not_mem_nil, or_false,
      reduceCtorEq, false_or, Option.some.injEq] at hcc
    subst hcc
    exact ⟨_, ⟨fun _ _ => (none, none), none⟩, rfl, rfl⟩)

/-- C9 counterexample: when an earlier configuration fails (here the
`anthropic` factory errors), `New` reports that earlier failure — the
returned error does not name the unregistered `mystery` provider, contra
the claim as stated. -/
theorem new_error_names_earlier_failure :
    (NewGateway
        (fun pt => if pt = "anthropic"
          then some (fun _ => .error "boom") else none)
        [some ⟨"anthropic"⟩, some ⟨"mystery"⟩]).err =
      some "failed to initialize anthropic: boom" ∧
    strContains "failed to initialize anthropic: boom" "mystery" = false := by
  exact ⟨rfl, by decide⟩

/-- Helper for C1: with a never-cancelled context and an operation whose
every invocation fails with a transient-classified error, each run of the
retry loop performs exactly `fuel` invocations and returns the error of
the last one. -/
theorem executeLoop_always_transient {E : Type} (cfg : RateLimitConfig)
    (errText : E → String) (fn : Nat → Option E) (es : Nat → E) (u : Nat → ℚ)
    (hfn : ∀ k, fn k = some (es k))
    (htr : ∀ k, isRateLimitError (some (errText (es k))) = true) :
    ∀ (fuel attempt : Nat) (backoff : Int), 1 ≤ fuel →
      (attempt : Int) + fuel = cfg.maxRetries + 1 →
      (executeLoop cfg errText fn (fun _ => false) (fun _ => false) u
          attempt backoff fuel).invocations = fuel ∧
      (executeLoop cfg errText fn (fun _ => false) (fun _ => false) u
          attempt backoff fuel).result = .failure (es (attempt + fuel - 1)) := by
  intro fuel
  induction fuel with
  | zero => intro attempt backoff h; omega
  | succ f ih =>
    intro attempt backoff _ hsum
    by_cases hge : (attempt : Int) ≥ cfg.maxRetries
    · have hf0 : f = 0 := by omega
      subst hf0
      simp [executeLoop, hfn, htr, hge]
    · have hf1 : 1 ≤ f := by omega
      have hsum' : ((attempt + 1 : Nat) : Int) + f = cfg.maxRetries + 1 := by
        push_cast
        push_cast at hsum
        omega
      have hrec := ih (attempt + 1) (nextBackoff cfg backoff) hf1 hsum'
      have hidx : attempt + 1 + f - 1 = attempt + (f + 1) - 1 := by omega
      rw [hidx] at hrec
      simp [executeLoop, hfn, htr, hge, hrec.1, hrec.2]

/-- C1: for an effective (non-negative, e.g. post-default) `MaxRetries`,
an operation whose every invocation fails with a transient-classified
error, and a context that is never cancelled, `Execute` invokes the
operation exactly `MaxRetries + 1` times — never more — and returns the
error value of the last invocation. -/
theorem execute_transient_exact_invocations {E : Type}
    (cfg : RateLimitConfig) (errText : E → String) (fn : Nat → Option E)
    (es : Nat → E) (u : Nat → ℚ)
    (hmr : 0 ≤ cfg.maxRetries)
    (hfn : ∀ k, fn k = some (es k))
    (htr : ∀ k, isRateLimitError (some (errText (es k))) = true) :
    (Execute cfg errText fn (fun _ => false) (fun _ => false) u).invocations =
      cfg.maxRetries.toNat + 1 ∧
    (Execute cfg errText fn (fun _ => false) (fun _ => false) u).result =
      .failure (es cfg.maxRetries.toNat) := by
  have h := executeLoop_always_transient cfg errText fn es u hfn htr
    (cfg.maxRetries + 1).toNat 0 cfg.initialBackoff (by omega) (by omega)
  have hcnt : (cfg.maxRetries + 1).toNat = cfg.maxRetries.toNat + 1 := by omega
  unfold Execute
  rw [hcnt] at h ⊢
  have hidx : 0 + (cfg.maxRetries.toNat + 1) - 1 = cfg.maxRetries.toNat := by omega
  rw [hidx] at h
  exact h

/-- Witness for `execute_transient_exact_invocations`: the default
config (3 retries) against an operation always failing with "429". -/
theorem execute_transient_exact_invocations_witness :
    (Execute ⟨3, second, 60 * second, 2⟩ id (fun _ => some "429")
        (fun _ => false) (fun _ => false) (fun _ => 0)).invocations = 4 ∧
    (Execute ⟨3, second, 60 * second, 2⟩ id (fun _ => some "429")
        (fun _ => false) (fun _ => false) (fun _ => 0)).result =
      .failure "429" :=
  execute_transient_exact_invocations _ id _ (fun _ => "429") _
    (by decide) (fun _ => rfl)
    (fun _ => (by decide : isRateLimitError (some "429") = true))

/-- C4 counterexample: with `InitialBackoff = 100s`, `MaxBackoff = 10s`
and multiplier 2 (≥ 1, no defaulting applies since all fields are
non-zero), the first nominal backoff already exceeds `MaxBackoff`, and
the sequence then decreases (100s, 10s, ...) — the cap is only applied at
the update, never to the initial value. -/
theorem backoff_not_capped_counterexample :
    (1 : ℚ) ≤ (⟨3, 100 * second, 10 * second, 2⟩ : RateLimitConfig).backoffMultiplier ∧
    nominalBackoff ⟨3, 100 * second, 10 * second, 2⟩ 0 >
      (⟨3, 100 * second, 10 * second, 2⟩ : RateLimitConfig).maxBackoff ∧
    nominalBackoff ⟨3, 100 * second, 10 * second, 2⟩ 1 <
      nominalBackoff ⟨3, 100 * second, 10 * second, 2⟩ 0 := by
  decide

/-- C4 amended: for any configuration with `BackoffMultiplier ≥ 1`,
non-negative `InitialBackoff` and `InitialBackoff ≤ MaxBackoff` (as the
defaults satisfy), the nominal backoff sequence before jitter is
non-decreasing and never exceeds `MaxBackoff`; and with
`InitialBackoff = 1s, MaxBackoff = 10s, Multiplier = 3.0` it is
`1s, 3s, 9s, 10s, 10s`. -/
theorem nominal_backoff_monotone_capped :
    (∀ cfg : RateLimitConfig, 1 ≤ cfg.backoffMultiplier →
      0 ≤ cfg.initialBackoff → cfg.initialBackoff ≤ cfg.maxBackoff →
      ∀ k, nominalBackoff cfg k ≤ nominalBackoff cfg (k + 1) ∧
        nominalBackoff cfg k ≤ cfg.maxBackoff) ∧
    (List.range 5).map (nominalBackoff ⟨3, second, 10 * second, 3⟩) =
      [second, 3 * second, 9 * second, 10 * second, 10 * second] := by
  constructor
  · intro cfg hm h0 hcap
    have key : ∀ b : Int, 0 ≤ b →
        b ≤ ratTrunc (ratMul (b : ℚ) cfg.backoffMultiplier) := by
      intro b hb
      have hb' : (0 : ℚ) ≤ (b : ℚ) := by exact_mod_cast hb
      have hq : (b : ℚ) ≤ (b : ℚ) * cfg.backoffMultiplier :=
        le_mul_of_one_le_right hb' hm
      have hnn : ¬ ((b : ℚ) * cfg.backoffMultiplier < 0) :=
        not_lt.mpr (le_trans hb' hq)
      rw [ratMul_eq, ratTrunc, if_neg hnn]
      exact Int.le_floor.mpr hq
    have inv : ∀ k, 0 ≤ nominalBackoff cfg k ∧
        nominalBackoff cfg k ≤ cfg.maxBackoff := by
      intro k
      induction k with
      | zero => exact ⟨h0, hcap⟩
      | succ k ih =>
        have hkey := key _ ih.1
        simp only [nominalBackoff, nextBackoff]
        by_cases hgt :
          ratTrunc (ratMul (nominalBackoff cfg k : ℚ) cfg.backoffMultiplier) > cfg.maxBackoff
        · rw [if_pos hgt]
          exact ⟨le_trans h0 hcap, le_refl _⟩
        · rw [if_neg hgt]
          exact ⟨le_trans ih.1 hkey, not_lt.mp hgt⟩
    intro k
    refine ⟨?_, (inv k).2⟩
    have hkey := key _ (inv k).1
    show nominalBackoff cfg k ≤ nextBackoff cfg (nominalBackoff cfg k)
    simp only [nextBackoff]
    by_cases hgt :
      ratTrunc (ratMul (nominalBackoff cfg k : ℚ) cfg.backoffMultiplier) > cfg.maxBackoff
    · rw [if_pos hgt]
      exact (inv k).2
    · rw [if_neg hgt]
      exact hkey
  · decide

/-- Witness for `nominal_backoff_monotone_capped` (its first,
hypothesis-bearing part) at the example configuration. -/
theorem nominal_backoff_monotone_capped_witness :
    nominalBackoff ⟨3, second, 10 * second, 3⟩ 2 ≤
      nominalBackoff ⟨3, second, 10 * second, 3⟩ 3 ∧
    nominalBackoff ⟨3, second, 10 * second, 3⟩ 2 ≤
      (⟨3, second, 10 * second, 3⟩ : RateLimitConfig).maxBackoff :=
  nominal_backoff_monotone_capped.1 ⟨3, second, 10 * second, 3⟩
    (by decide) (by decide) (by decide) 2

/-- A pattern placed at the head of the text is found there. -/
theorem listIsPrefixOf_append_self : ∀ (p l : List Char),
    listIsPrefixOf (p ++ l) p = true
  | [], l => by cases l <;> rfl
  | a :: p, l => by
    simp [listIsPrefixOf, listIsPrefixOf_append_self p l]

/-- `strings.Index` returns 0 when the pattern is a prefix of the text. -/
theorem indexOf?_zero_of_isPrefixOf {l p : List Char}
    (h : listIsPrefixOf l p = true) : indexOf? l p = some 0 := by
  cases l <;> simp [indexOf?, h]

/-- Numeric bounds of a decimal digit character. -/
theorem char_digit_val {c : Char} (h : c.isDigit = true) :
    48 ≤ c.toNat ∧ c.toNat ≤ 57 := by
  simp [Char.isDigit] at h
  exact h

/-- A digit character is not the dot. -/
theorem digit_ne_dot {c : Char} (h : c.isDigit = true) : (c != '.') = true := by
  rcases eq_or_ne c '.' with rfl | hne
  · exact absurd h (by decide)
  · simp [bne_iff_ne]
    exact hne

/-- A digit character passes the scanner predicate of `extractRetryAfter`. -/
theorem digit_scan_pred {c : Char} (h : c.isDigit = true) :
    (c.isDigit || c == '.') = true := by
  simp [h]

/-- The value of a digit string is below `10 ^ length`. -/
theorem digitsToNat_lt (ds : List Char) (h : ∀ c ∈ ds, c.isDigit = true) :
    digitsToNat ds < 10 ^ ds.length := by
  induction ds with
  | nil => simp [digitsToNat]
  | cons c t ih =>
    have hc := char_digit_val (h c (List.mem_cons_self _ _))
    have ht := ih (fun x hx => h x (List.mem_cons_of_mem _ hx))
    have hd : c.toNat - 48 ≤ 9 := by omega
    have hmul : (c.toNat - 48) * 10 ^ t.length ≤ 9 * 10 ^ t.length :=
      Nat.mul_le_mul_right _ hd
    have hps : 10 ^ (t.length + 1) = 10 ^ t.length * 10 := pow_succ 10 t.length
    simp only [digitsToNat, List.length_cons]
    omega

/-- The rational built by `parseGoFloat` for the digit string `I.F` is the
value `I + F / 10^k`. -/
theorem parseGoFloat_fracValue (I F k : Nat) :
    (mkRat (I * 10 ^ k + F) (10 ^ k) : ℚ) = (I : ℚ) + (F : ℚ) / 10 ^ k := by
  rw [Rat.mkRat_eq_div]
  have hk : ((10 : ℚ) ^ k) ≠ 0 := by positivity
  push_cast
  field_simp

/-- Go's float-to-duration conversion truncates `I + F / 10^k` to `I`. -/
theorem ratTrunc_fracValue (I F k : Nat) (hF : F < 10 ^ k) :
    ratTrunc (mkRat (I * 10 ^ k + F) (10 ^ k)) = I := by
  rw [parseGoFloat_fracValue]
  have hfr0 : (0 : ℚ) ≤ (F : ℚ) / 10 ^ k := by positivity
  have hfr1 : (F : ℚ) / 10 ^ k < 1 := by
    rw [div_lt_one (by positivity)]
    exact_mod_cast hF
  have hnn : ¬ ((I : ℚ) + (F : ℚ) / 10 ^ k < 0) := by
    push_neg
    positivity
  rw [ratTrunc, if_neg hnn]
  rw [Int.floor_eq_iff]
  constructor
  · push_cast
    linarith
  · push_cast
    linarith

/-- C5 counterexample: an error text containing the substring
`retry_after_ms=1500` (inside `(retry_after_ms=1500)`) but also an earlier
occurrence of the pattern `retry after `: the computed wait is 2 s, not
1500 ms — the patterns are tried in list order, so the claim as stated
fails. -/
theorem retry_after_ms_substring_counterexample :
    strContains "429, retry after 2 seconds (retry_after_ms=1500)"
      "retry_after_ms=1500" = true ∧
    isRateLimitError (some "429, retry after 2 seconds (retry_after_ms=1500)") = true ∧
    calculateBackoff 0 (some "429, retry after 2 seconds (retry_after_ms=1500)") 0 =
      2 * second ∧
    (2 * second : Int) ≠ 1500 * millisecond := by
  decide

/-- C5 amended: for every transient error whose text contains none of the
earlier patterns (`retry after `, `retry-after: `, `retry_after=`) and
where the digit/dot run following the first occurrence of
`retry_after_ms=` is exactly `1500`, the computed wait is exactly 1500 ms
for every current backoff and every jitter draw — the jittered backoff is
ignored entirely. -/
theorem retry_after_ms_1500_exact (msg : String) (i : Nat) (base : Int) (u : ℚ)
    (_htrans : isRateLimitError (some msg) = true)
    (h1 : indexOf? (goToLower msg.toList) ("retry after ".toList) = none)
    (h2 : indexOf? (goToLower msg.toList) ("retry-after: ".toList) = none)
    (h3 : indexOf? (goToLower msg.toList) ("retry_after=".toList) = none)
    (h4 : indexOf? (goToLower msg.toList) ("retry_after_ms=".toList) = some i)
    (h5 : scanNumber (msg.toList.drop (i + "retry_after_ms=".length)) = "1500".toList) :
    calculateBackoff base (some msg) u = 1500 * millisecond := by
  have t1 : tryPattern msg.toList "retry after " = none := by
    unfold tryPattern
    rw [h1]
  have t2 : tryPattern msg.toList "retry-after: " = none := by
    unfold tryPattern
    rw [h2]
  have t3 : tryPattern msg.toList "retry_after=" = none := by
    unfold tryPattern
    rw [h3]
  have t4 : tryPattern msg.toList "retry_after_ms=" = some (1500 * millisecond) := by
    unfold tryPattern
    rw [h4]
    dsimp only
    rw [h5]
    decide
  have hextract : extractRetryAfter (some msg) = 1500 * millisecond := by
    simp only [extractRetryAfter, retryAfterPatterns, List.findSome?_cons, t1, t2, t3, t4]
    rfl
  simp only [calculateBackoff, hextract]
  norm_num [millisecond]

/-- Witness for `retry_after_ms_1500_exact` at the text
`429 retry_after_ms=1500!`. -/
theorem retry_after_ms_1500_exact_witness :
    calculateBackoff 7 (some "429 retry_after_ms=1500!") (1 / 2) =
      1500 * millisecond :=
  retry_after_ms_1500_exact "429 retry_after_ms=1500!" 4 7 (1 / 2)
    (by decide) (by decide) (by decide) (by decide) (by decide) (by decide)

/-- C6 counterexample: for the transient error text
`429: retry after 2.5 seconds`, the extracted wait is 2 s, not 2.5 s
(2500000000 ns) — `time.Duration(val)` truncates the parsed float before
the unit is applied. -/
theorem retry_after_fractional_counterexample :
    extractRetryAfter (some "429: retry after 2.5 seconds") = 2 * second ∧
    (2 * second : Int) ≠ 2500000000 := by
  decide

/-- C6 amended: for an error text of the form
`retry after <I>.<F> seconds` (digit strings `I`, `F`, `I` non-empty),
the extracted wait is exactly `I` seconds — the number is parsed as a
float but truncated to an integer count of the unit, so the fractional
part is discarded (integer-valued hints are honoured exactly). -/
theorem retry_after_seconds_truncated (intPart fracPart : List Char)
    (hInt : ∀ c ∈ intPart, c.isDigit = true)
    (hFrac : ∀ c ∈ fracPart, c.isDigit = true)
    (hne : intPart ≠ []) :
    extractRetryAfter (some ⟨"retry after ".toList ++
        (intPart ++ ('.' :: (fracPart ++ " seconds".toList)))⟩) =
      (digitsToNat intPart : Int) * second := by
  have t1 : tryPattern
      ("retry after ".toList ++ (intPart ++ ('.' :: (fracPart ++ " seconds".toList))))
      "retry after " = some ((digitsToNat intPart : Int) * second) := by
    unfold tryPattern
    have hidx : indexOf?
        (goToLower ("retry after ".toList ++
          (intPart ++ ('.' :: (fracPart ++ " seconds".toList)))))
        ("retry after ".toList) = some 0 := by
      apply indexOf?_zero_of_isPrefixOf
      rw [goToLower, List.map_append]
      have hfix : List.map Char.toLower ("retry after ".toList) =
          "retry after ".toList := by decide
      rw [hfix]
      exact listIsPrefixOf_append_self _ _
    rw [hidx]
    dsimp only
    have hdrop : ("retry after ".toList ++
        (intPart ++ ('.' :: (fracPart ++ " seconds".toList)))).drop
          (0 + "retry after ".length) =
        intPart ++ ('.' :: (fracPart ++ " seconds".toList)) := by
      rw [Nat.zero_add]
      exact List.drop_left' rfl
    rw [hdrop]
    have hscan : scanNumber
        (intPart ++ ('.' :: (fracPart ++ " seconds".toList))) =
        intPart ++ ('.' :: fracPart) := by
      unfold scanNumber
      rw [List.takeWhile_append_of_pos (fun c hc => digit_scan_pred (hInt c hc)),
        List.takeWhile_cons]
      rw [if_pos (by decide)]
      rw [List.takeWhile_append_of_pos (fun c hc => digit_scan_pred (hFrac c hc))]
      have hsfx : (" seconds".toList).takeWhile (fun c => c.isDigit || c == '.') = [] := by
        decide
      rw [hsfx, List.append_nil]
    rw [hscan]
    have hemp : (intPart ++ ('.' :: fracPart)).isEmpty = false := by
      cases intPart <;> simp [List.isEmpty]
    rw [hemp]
    simp only [Bool.false_eq_true, if_false]
    have hparse : parseGoFloat (intPart ++ ('.' :: fracPart)) =
        some (mkRat
          (digitsToNat intPart * 10 ^ fracPart.length + digitsToNat fracPart)
          (10 ^ fracPart.length)) := by
      unfold parseGoFloat
      rw [List.takeWhile_append_of_pos (fun c hc => digit_ne_dot (hInt c hc)),
        List.dropWhile_append_of_pos (fun c hc => digit_ne_dot (hInt c hc)),
        List.takeWhile_cons, List.dropWhile_cons]
      rw [if_neg (by decide), if_neg (by decide), List.append_nil]
      dsimp only
      have hany : (fracPart.any (fun c => c == '.')) = false := by
        rw [List.any_eq_false]
        intro c hc
        have h' := digit_ne_dot (hFrac c hc)
        simp [bne] at h'
        simp [h']
      rw [hany]
      have hemp2 : (intPart.isEmpty && fracPart.isEmpty) = false := by
        cases intPart with
        | nil => exact absurd rfl hne
        | cons a t => simp [List.isEmpty]
      rw [hemp2]
      simp only [Bool.false_eq_true, if_false]
    rw [hparse]
    dsimp only
    rw [if_neg (by decide)]
    rw [ratTrunc_fracValue _ _ _ (digitsToNat_lt fracPart hFrac)]
  have htl : (⟨"retry after ".toList ++
      (intPart ++ ('.' :: (fracPart ++ " seconds".toList)))⟩ : String).toList =
      "retry after ".toList ++
        (intPart ++ ('.' :: (fracPart ++ " seconds".toList))) := rfl
  simp only [extractRetryAfter, htl, retryAfterPatterns, List.findSome?_cons, t1]
  rfl

/-- Witness for `retry_after_seconds_truncated` at `retry after 2.5
seconds`: the wait is 2 s. -/
theorem retry_after_seconds_truncated_witness :
    extractRetryAfter (some ⟨"retry after ".toList ++
        (['2'] ++ ('.' :: (['5'] ++ " seconds".toList)))⟩) =
      (digitsToNat ['2'] : Int) * second :=
  retry_after_seconds_truncated ['2'] ['5'] (by decide) (by decide) (by decide)

end Lingo
